import Mathlib

/-!
Verification of the snapd store client (`store/store.go`) against its
natural-language specification.

The Go source is shallowly embedded: pure fragments become Lean functions,
the stateful download / request pipelines become explicit state passing over
an input trace of network outcomes, and byte strings become `List Nat`.
External collaborators that are out of scope for the spec (the SHA3-384 and
SHA-256 primitives of Go's `crypto` package) are passed in as explicit
function arguments, so every statement below is universally quantified over
the digest function and no stub is baked into a definition.
-/

namespace SnapdStore

/-! ## String helpers mirroring Go's `strings` package -/

/-- Mirrors Go `strings.HasSuffix`. -/
def hasSuffixStr (s suf : String) : Bool :=
  suf.data.isSuffixOf s.data

/-- Mirrors Go `strings.TrimSuffix`: drops `suf` from the end of `s` when
present, otherwise returns `s` unchanged. -/
def trimSuffixStr (s suf : String) : String :=
  if suf.data.isSuffixOf s.data then
    String.mk (s.data.take (s.data.length - suf.data.length))
  else s

/-- Mirrors Go `strings.HasPrefix`. -/
def hasPrefixStr (s pre : String) : Bool :=
  pre.data.isPrefixOf s.data

/-- Does `sub` occur as a contiguous sublist of the second argument? -/
def listContainsSub (sub : List Char) : List Char → Bool
  | [] => sub.isEmpty
  | c :: rest => sub.isPrefixOf (c :: rest) || listContainsSub sub rest

/-- Mirrors Go `strings.Contains` (substring test). -/
def containsStr (s sub : String) : Bool :=
  listContainsSub sub.data s.data

/-- Mirrors Go `strings.ContainsAny`: does `s` contain any character of
`chars`? -/
def containsAnyStr (s chars : String) : Bool :=
  s.data.any (fun c => chars.data.contains c)

/-- White-space test of Go `unicode.IsSpace`, restricted to the Latin-1
range that can actually occur in the inputs of the claims. -/
def goIsSpace (c : Char) : Bool :=
  c.toNat = 9 ∨ c.toNat = 10 ∨ c.toNat = 11 ∨ c.toNat = 12 ∨
  c.toNat = 13 ∨ c.toNat = 32 ∨ c.toNat = 0x85 ∨ c.toNat = 0xA0

/-- Mirrors Go `strings.TrimSpace`. -/
def trimSpaceStr (s : String) : String :=
  String.mk (((s.data.dropWhile goIsSpace).reverse.dropWhile goIsSpace).reverse)

/-- UTF-8 bytes of a string, as natural numbers; mirrors Go's `[]byte(s)`. -/
def strBytes (s : String) : List Nat :=
  s.toUTF8.toList.map (fun b => b.toNat)

/-! ## Config & URL resolver (`storeURL`, store.go lines 236-260)

`storeURL` derives the base store URL from the default API URL and the
`SNAPPY_FORCE_CPI_URL` / `SNAPPY_FORCE_API_URL` environment overrides.
`url.Parse` of Go's standard library is out of scope and is modelled as the
identity on the URL string (it succeeds on every URL the claims mention). -/

/-- The selection logic of `storeURL`: `cpi` and `apiEnv` are the values of
`SNAPPY_FORCE_CPI_URL` and `SNAPPY_FORCE_API_URL`; `api` is the default API
URL passed in. Translated line by line from store.go lines 238-260. -/
def storeURLModel (cpi apiEnv api : String) : String :=
  let override :=
    if cpi ≠ "" ∧ hasSuffixStr cpi "api/v1/" then trimSuffixStr cpi "api/v1/"
    else if apiEnv ≠ "" then apiEnv
    else ""
  if override ≠ "" then override else api

/-! ## Query parameters (`url.Values`)

`url.Values.Set` replaces the value under a key; modelled as an association
list where `qSet` replaces in place or appends. Every key used by `Find` is
set at most once, so the representation is exact for the claims. -/

/-- `url.Values.Set`: replace the entry under `k`, or append a new one. -/
def qSet (q : List (String × String)) (k v : String) : List (String × String) :=
  if q.any (fun p => p.1 = k) then
    q.map (fun p => if p.1 = k then (k, v) else p)
  else q ++ [(k, v)]

/-- Lookup of a query parameter / header value (the first entry wins; `qSet`
keeps keys unique, so this is exact). -/
def qGet : List (String × String) → String → Option String
  | [], _ => none
  | p :: rest, k => if p.1 = k then some p.2 else qGet rest k

/-! ## Find (store.go lines 1199-1253, up to the network call)

The model covers `Find` from entry to the point where the HTTP request would
be issued: it either returns one of the typed errors (no network call is
made on those paths) or the query parameters of the v2 find request. -/

/-- The `Search` struct (store.go lines 1184-1195). -/
structure Search where
  Query : String
  Prefix : Bool := false
  CommonID : String := ""
  Category : String := ""
  Private : Bool := false
  Scope : String := ""
deriving DecidableEq, Repr

/-- Typed errors `Find` can return before any network call. -/
inductive FindErr where
  | unauthenticated
  | badQuery
  | invalidScope
deriving DecidableEq, Repr

/-- Store fields consulted by `Find`. -/
structure FindCfg where
  findFields : List String
  architecture : String
  onClassic : Bool
deriving DecidableEq, Repr

/-- The denylist of store.go line 1212. Braces are written with their hex
escapes. -/
def denylistChars : String := "+=&|><!()\x7b\x7d[]^\"~*?:\\/"

/-- The query parameters `Find` accumulates before the scope branch
(store.go lines 1216-1237). -/
def findBaseQuery (cfg : FindCfg) (search : Search) (searchTerm : String) :
    List (String × String) :=
  let q := qSet [] "fields" (String.intercalate "," cfg.findFields)
  let q := qSet q "architecture" cfg.architecture
  let q := if search.Private then qSet q "private" "true" else q
  let q :=
    if search.Prefix then qSet q "name" searchTerm
    else
      let q := if search.CommonID ≠ "" then qSet q "common-id" search.CommonID else q
      if searchTerm ≠ "" then qSet q "q" searchTerm else q
  if search.Category ≠ "" then qSet q "category" search.Category else q

/-- The confinement parameter (store.go lines 1247-1251). -/
def findConfinement (onClassic : Bool) (q : List (String × String)) :
    List (String × String) :=
  if onClassic then qSet q "confinement" "strict,classic"
  else qSet q "confinement" "strict"

/-- `Find` up to the network call, translated line by line from store.go
lines 1199-1253. A `.ok q` result means the v2 find request is issued with
query parameters `q`; an `.error` result is returned without any network
call. -/
def findModel (cfg : FindCfg) (search : Search) (userPresent : Bool) :
    Except FindErr (List (String × String)) :=
  if search.Private ∧ ¬ userPresent then .error .unauthenticated
  else
    let searchTerm := trimSpaceStr search.Query
    if containsAnyStr searchTerm denylistChars then .error .badQuery
    else
      let q := findBaseQuery cfg search searchTerm
      -- scope handling (store.go lines 1239-1245)
      if search.Scope = "" then
        .ok (findConfinement cfg.onClassic (qSet q "channel" "stable"))
      else if search.Scope ≠ "wide" then .error .invalidScope
      else .ok (findConfinement cfg.onClassic q)

/-! ## CDN header (`cdnHeader`, store.go lines 988-1023, and
`downloadReqOpts`, lines 1610-1626) -/

/-- Cloud instance information exposed by the device-and-auth context. -/
structure CloudInfo where
  Name : String
  Region : String
  AvailabilityZone : String
deriving DecidableEq, Repr

/-- Device state as used by `EnsureDeviceSession` / `authenticateDevice`. -/
structure DeviceState where
  Serial : String
  SessionMacaroon : String
deriving DecidableEq, Repr

/-- The outcomes of the `DeviceAndAuthContext` collaborator's operations, as
data. The collaborator itself is out of scope (spec section 1); each field is
the result the corresponding method call would deliver. -/
structure DauthCtx where
  /-- Result of `StoreID(fallback)`. -/
  storeIDResult : Except Unit String
  /-- Result of `Device()`. -/
  deviceResult : Except Unit DeviceState
  /-- Device state after `refreshDeviceSession` (in-place update), or its
  error. -/
  refreshResult : Except Unit DeviceState
  /-- Result of `CloudInfo()`. -/
  cloudInfoResult : Except Unit (Option CloudInfo)
deriving Repr

/-- One quoted character of Go's `%q` verb (printable characters only,
which covers cloud names/regions/zones). -/
def goQuoteChar (c : Char) : List Char :=
  if c = '"' then ['\\', '"']
  else if c = '\\' then ['\\', '\\']
  else [c]

/-- Go `fmt.Sprintf("%q", s)` for printable strings. -/
def goQuote (s : String) : String :=
  String.mk ('"' :: (s.data.map goQuoteChar).flatten ++ ['"'])

/-- Mirrors Go `strings.Join`. -/
def goJoin (sep : String) : List String → String
  | [] => ""
  | x :: xs => xs.foldl (fun acc y => acc ++ sep ++ y) x

/-- `cdnHeader` (store.go lines 988-1023): the value of the `Snap-CDN`
header, `""` meaning "send no header". -/
def cdnHeaderModel (noCDN : Bool) (dauthCtx : Option DauthCtx) :
    Except Unit String :=
  if noCDN then .ok "none"
  else
    match dauthCtx with
    | none => .ok ""
    | some c =>
      match c.cloudInfoResult with
      | .error e => .error e
      | .ok none => .ok ""
      | .ok (some cloudInfo) =>
        let cdnParams := ["cloud-name=" ++ goQuote cloudInfo.Name]
        let cdnParams :=
          if cloudInfo.Region ≠ "" then
            cdnParams ++ ["region=" ++ goQuote cloudInfo.Region]
          else cdnParams
        let cdnParams :=
          if cloudInfo.AvailabilityZone ≠ "" then
            cdnParams ++ ["availability-zone=" ++ goQuote cloudInfo.AvailabilityZone]
          else cdnParams
        .ok (goJoin " " cdnParams)

/-- `DownloadOptions` (store.go lines 1488-1492). -/
structure DownloadOptionsM where
  RateLimit : Int := 0
  IsAutoRefresh : Bool := false
  LeavePartialOnError : Bool := false
deriving DecidableEq, Repr

/-- The extra headers built by `downloadReqOpts` (store.go lines 1610-1626). -/
def downloadReqOptsHeaders (cdnHeader : String) (opts : Option DownloadOptionsM) :
    List (String × String) :=
  let hs : List (String × String) := []
  let hs := if cdnHeader ≠ "" then qSet hs "Snap-CDN" cdnHeader else hs
  match opts with
  | some o => if o.IsAutoRefresh then qSet hs "Snap-Refresh-Reason" "scheduled" else hs
  | none => hs

/-- The extra headers of a download request: `cdnHeader` composed with
`downloadReqOpts` exactly as `downloadImpl` does (store.go lines 1643-1652). -/
def downloadHeaders (noCDN : Bool) (dauthCtx : Option DauthCtx)
    (opts : Option DownloadOptionsM) : Except Unit (List (String × String)) :=
  match cdnHeaderModel noCDN dauthCtx with
  | .error e => .error e
  | .ok ch => .ok (downloadReqOptsHeaders ch opts)

/-- The spec's reading of the CDN header value ("compose cloud-name, region
and availability-zone parts with empty fields omitted"). Written from the
spec's words, for comparison with `cdnHeaderModel` which is written from the
source. -/
def cdnHeaderSpecText (noCDN : Bool) (dauthCtx : Option DauthCtx) :
    Except Unit String :=
  if noCDN then .ok "none"
  else
    match dauthCtx with
    | none => .ok ""
    | some c =>
      match c.cloudInfoResult with
      | .error e => .error e
      | .ok none => .ok ""
      | .ok (some cloudInfo) =>
        let cdnParams :=
          (if cloudInfo.Name ≠ "" then ["cloud-name=" ++ goQuote cloudInfo.Name] else []) ++
          (if cloudInfo.Region ≠ "" then ["region=" ++ goQuote cloudInfo.Region] else []) ++
          (if cloudInfo.AvailabilityZone ≠ "" then
            ["availability-zone=" ++ goQuote cloudInfo.AvailabilityZone] else [])
        .ok (goJoin " " cdnParams)

/-! ## Instance keys (`genInstanceKey`, store.go lines 2348-2367)

`snap.SplitInstanceName` lives in the snap package, outside the provided
sources; it is modelled from the spec. SHA-256 is a Go `crypto` primitive
and is an explicit function argument; `base64.RawURLEncoding` is the
standard URL-safe base64 alphabet without padding. -/

/-- Modelled from the spec: instance names have the form `name_key`
(glossary: "the local suffix distinguishing parallel installs"); the split
is at the first underscore, and a name without an underscore has an empty
instance key. This mirrors `snap.SplitInstanceName`, which is not among the
provided sources. -/
def SplitInstanceName (instanceName : String) : String × String :=
  match instanceName.data.findIdx? (fun c => c = '_') with
  | none => (instanceName, "")
  | some i =>
    (String.mk (instanceName.data.take i), String.mk (instanceName.data.drop (i + 1)))

/-- The URL-safe base64 alphabet (RFC 4648 section 5). -/
def b64urlAlphabet : List Char :=
  "ABCDEFGHIJKLMNOPQRSTUVWXYZabcdefghijklmnopqrstuvwxyz0123456789-_".data

/-- One base64 digit. -/
def b64urlDigit (n : Nat) : Char :=
  b64urlAlphabet.getD n '?'

/-- `base64.RawURLEncoding.EncodeToString`: URL-safe base64 without
padding, over bytes given as naturals below 256. -/
def base64RawURL : List Nat → List Char
  | [] => []
  | [b1] =>
    [b64urlDigit (b1 / 4), b64urlDigit (b1 % 4 * 16)]
  | [b1, b2] =>
    [b64urlDigit (b1 / 4), b64urlDigit (b1 % 4 * 16 + b2 / 16),
     b64urlDigit (b2 % 16 * 4)]
  | b1 :: b2 :: b3 :: rest =>
    b64urlDigit (b1 / 4) :: b64urlDigit (b1 % 4 * 16 + b2 / 16) ::
    b64urlDigit (b2 % 16 * 4 + b3 / 64) :: b64urlDigit (b3 % 64) ::
    base64RawURL rest

/-- `CurrentSnap` (store.go lines 2192-2202). Revisions are modelled as
integers with `0` meaning unset (`snap.Revision.Unset`), and the epoch by
the `Epoch` structure below. -/
structure Epoch where
  read : List Nat := [0]
  write : List Nat := [0]
deriving DecidableEq, Repr

/-- Modelled from the spec: `snap.Epoch.IsZero`, outside the provided
sources. An epoch is zero when both lists are unset or the singleton `[0]`;
for the claims only zero-ness is consulted. -/
def Epoch.IsZero (e : Epoch) : Bool :=
  (e.read = [] ∨ e.read = [0]) ∧ (e.write = [] ∨ e.write = [0])

/-- `CurrentSnap` (store.go lines 2192-2202). -/
structure CurrentSnap where
  InstanceName : String
  SnapID : String
  Revision : Int := 0
  TrackingChannel : String := ""
  RefreshedDate : Option Nat := none
  IgnoreValidation : Bool := false
  Block : List Int := []
  Epoch : Epoch := {}
  CohortKey : String := ""
deriving DecidableEq, Repr

/-- `genInstanceKey` (store.go lines 2348-2367). `sha256` is the Go
`crypto.SHA256` primitive, passed as a function over byte lists; the writes
`h.Write(snapID); h.Write(instanceKey); h.Write(salt)` feed it the
concatenation of the three byte strings. -/
def genInstanceKey (sha256 : List Nat → List Nat) (curSnap : CurrentSnap)
    (salt : String) : Except Unit String :=
  let snapInstanceKey := (SplitInstanceName curSnap.InstanceName).2
  if snapInstanceKey = "" then .ok curSnap.SnapID
  else if salt = "" then .error ()
  else
    let sum := sha256 (strBytes curSnap.SnapID ++ strBytes snapInstanceKey ++ strBytes salt)
    .ok (curSnap.SnapID ++ ":" ++ String.mk (base64RawURL sum))

/-! ## Snap-action request construction (store.go lines 2222-2521)

The action loop of `snapAction` is modelled as structural recursion carrying
the `installNum` / `downloadNum` counters. JSON marshalling of one action is
modelled by `actionFields`, which reproduces the `json:"...,omitempty"`
behaviour of the `snapActionJSON` struct; Go's `interface{}`-typed `Epoch`
field becomes `Option (Option Epoch)`: `none` is an omitted field, `some
none` the typed nil pointer that marshals as JSON `null`, and `some (some
e)` an epoch value. -/

/-- `SnapAction` (store.go lines 2222-2231). `Flags` keeps the Go bitmask:
bit 0 is `SnapActionIgnoreValidation`, bit 1 `SnapActionEnforceValidation`. -/
structure SnapAction where
  Action : String
  InstanceName : String
  SnapID : String := ""
  Channel : String := ""
  Revision : Int := 0
  CohortKey : String := ""
  Flags : Nat := 0
  Epoch : Epoch := {}
deriving DecidableEq, Repr

/-- `isValidAction` (store.go lines 2233-2240). -/
def isValidAction (action : String) : Bool :=
  action = "download" ∨ action = "install" ∨ action = "refresh"

/-- `snapActionJSON` (store.go lines 2242-2259) before marshalling. -/
structure ActionJSON where
  Action : String
  InstanceKey : String
  Name : String := ""
  SnapID : String := ""
  Channel : String := ""
  Revision : Int := 0
  CohortKey : String := ""
  IgnoreValidation : Option Bool := none
  Epoch : Option (Option Epoch) := none
deriving DecidableEq, Repr

/-- JSON values as far as the claims need them; `epochVal e` stands for the
marshalled form of a `snap.Epoch` (whose own encoding lives outside the
provided sources). -/
inductive JVal where
  | str (v : String)
  | num (v : Int)
  | boolean (v : Bool)
  | null
  | epochVal (e : Epoch)
deriving DecidableEq, Repr

/-- The `key: value` fields Go's `encoding/json` emits for one
`snapActionJSON` (store.go lines 2242-2259), honouring each `omitempty`
tag. The `epoch` field is omitted exactly when the interface value is nil,
and marshals to `null` for the typed nil `(*snap.Epoch)(nil)`. -/
def actionFields (j : ActionJSON) : List (String × JVal) :=
  [("action", JVal.str j.Action), ("instance-key", JVal.str j.InstanceKey)] ++
  (if j.Name ≠ "" then [("name", JVal.str j.Name)] else []) ++
  (if j.SnapID ≠ "" then [("snap-id", JVal.str j.SnapID)] else []) ++
  (if j.Channel ≠ "" then [("channel", JVal.str j.Channel)] else []) ++
  (if j.Revision ≠ 0 then [("revision", JVal.num j.Revision)] else []) ++
  (if j.CohortKey ≠ "" then [("cohort-key", JVal.str j.CohortKey)] else []) ++
  (match j.IgnoreValidation with
   | some b => [("ignore-validation", JVal.boolean b)]
   | none => []) ++
  (match j.Epoch with
   | none => []
   | some none => [("epoch", JVal.null)]
   | some (some e) => [("epoch", JVal.epochVal e)])

/-- The action loop of `snapAction` (store.go lines 2420-2487), with the
`installNum` / `downloadNum` counters made explicit. `instanceNameToKey` is
the map built from the current-snap context. An `.error` aborts the whole
call before any request is issued. The statement `a.Channel = ""` the source
executes when a revision is set mutates the caller's action after
`aJSON.Channel` has already been copied, so it has no effect on the request
body and is not mirrored. -/
def buildActionJSONs (instanceNameToKey : String → String) :
    Nat → Nat → List SnapAction → Except Unit (List ActionJSON)
  | _, _, [] => .ok []
  | installNum, downloadNum, a :: rest =>
    if ¬ isValidAction a.Action then .error ()
    else if a.InstanceName = "" then .error ()
    else
      let ignoreValidation : Option Bool :=
        if a.Flags &&& 1 ≠ 0 then some true
        else if a.Flags &&& 2 ≠ 0 then some false
        else none
      let aJSON : ActionJSON :=
        { Action := a.Action
          InstanceKey := ""
          SnapID := a.SnapID
          Channel := a.Channel
          Revision := a.Revision
          CohortKey := a.CohortKey
          IgnoreValidation := ignoreValidation }
      let next : Except Unit (Nat × Nat × String) :=
        if a.Action = "install" then
          .ok (installNum + 1, downloadNum, "install-" ++ toString (installNum + 1))
        else if a.Action = "download" then
          if (SplitInstanceName a.InstanceName).2 ≠ "" then .error ()
          else .ok (installNum, downloadNum + 1, "download-" ++ toString (downloadNum + 1))
        else
          .ok (installNum, downloadNum, instanceNameToKey a.InstanceName)
      match next with
      | .error e => .error e
      | .ok (installNum', downloadNum', instanceKey) =>
        let aJSON :=
          if a.Action ≠ "refresh" then
            { aJSON with
              Name := (SplitInstanceName a.InstanceName).1
              Epoch := some (if a.Epoch.IsZero then none else some a.Epoch) }
          else aJSON
        let aJSON := { aJSON with InstanceKey := instanceKey }
        match buildActionJSONs instanceNameToKey installNum' downloadNum' rest with
        | .error e => .error e
        | .ok js => .ok (aJSON :: js)

/-- `currentSnapV2JSON` (store.go lines 2204-2213), as far as C4/C10 need
it. -/
structure CurrentSnapJSON where
  SnapID : String
  InstanceKey : String
  Revision : Int
  TrackingChannel : String
  IgnoreValidation : Bool
  Epoch : Epoch
  CohortKey : String
deriving DecidableEq, Repr

/-- The current-snap context loop of `snapAction` (store.go lines
2386-2418). -/
def buildContextJSONs (sha256 : List Nat → List Nat) (requestSalt : String) :
    List CurrentSnap → Except Unit (List CurrentSnapJSON)
  | [] => .ok []
  | curSnap :: rest =>
    if curSnap.SnapID = "" ∨ curSnap.InstanceName = "" ∨ curSnap.Revision = 0 then
      .error ()
    else
      match genInstanceKey sha256 curSnap requestSalt with
      | .error e => .error e
      | .ok instanceKey =>
        let channel :=
          if curSnap.TrackingChannel = "" then "stable" else curSnap.TrackingChannel
        let j : CurrentSnapJSON :=
          { SnapID := curSnap.SnapID
            InstanceKey := instanceKey
            Revision := curSnap.Revision
            TrackingChannel := channel
            IgnoreValidation := curSnap.IgnoreValidation
            Epoch := curSnap.Epoch
            CohortKey := curSnap.CohortKey }
        match buildContextJSONs sha256 requestSalt rest with
        | .error e => .error e
        | .ok js => .ok (j :: js)

/-- `SnapActionError` (spec section 7): per-bucket error maps plus the
`NoResults` flag, as far as the claims consult it. -/
structure SnapActionErrorM where
  NoResults : Bool := false
  Refresh : List (String × String) := []
  Install : List (String × String) := []
  Download : List (String × String) := []
  Other : List String := []
deriving DecidableEq, Repr

/-- Outcome of the `SnapAction` entry (store.go lines 2304-2316): either an
early return without any HTTP request, or the marshalled request body
(context and actions) that would be POSTed to `v2/snaps/refresh`. -/
inductive SnapActionOutcome where
  | early (results : Option (List Unit)) (err : SnapActionErrorM)
  | request (contextJSONs : List CurrentSnapJSON) (actionJSONs : List ActionJSON)
  | invalid
deriving DecidableEq, Repr

/-- `SnapAction` up to the first HTTP request (store.go lines 2304-2316 and
the request construction of `snapAction`, lines 2376-2494). `.early r e`
is a return of `(r, e)` without any network call; `.request ctx acts` means
an HTTP POST carrying those JSON bodies is issued; `.invalid` is an
internal-error return from the construction loops (also without a network
call). -/
def snapActionModel (sha256 : List Nat → List Nat) (currentSnaps : List CurrentSnap)
    (actions : List SnapAction) (privacyKey : String) : SnapActionOutcome :=
  if currentSnaps.length = 0 ∧ actions.length = 0 then
    .early none { NoResults := true }
  else
    let instanceNameToKey := fun name =>
      match currentSnaps.reverse.find? (fun cs => cs.InstanceName = name) with
      | some cs =>
        match genInstanceKey sha256 cs privacyKey with
        | .ok k => k
        | .error _ => ""
      | none => ""
    match buildContextJSONs sha256 privacyKey currentSnaps with
    | .error _ => .invalid
    | .ok ctx =>
      match buildActionJSONs instanceNameToKey 0 0 actions with
      | .error _ => .invalid
      | .ok acts => .request ctx acts

/-! ## Request pipeline (`newRequest`, store.go lines 933-986)

Headers are modelled as an association list written through `qSet`
(`http.Header.Set` replaces, like `url.Values.Set`). Macaroon serialization
is out of scope (spec section 1): the user `Authorization` value is
abbreviated to its root part, and only header presence is consulted by the
claims. -/

/-- API level (store.go lines 700-705). -/
inductive ApiLevel where
  | v1
  | v2
deriving DecidableEq, Repr

/-- `hdrSnapDeviceAuthorization` (store.go line 708). -/
def hdrSnapDeviceAuthorization : ApiLevel → String
  | .v1 => "X-Device-Authorization"
  | .v2 => "Snap-Device-Authorization"

/-- `hdrSnapDeviceStore` (store.go line 709). -/
def hdrSnapDeviceStore : ApiLevel → String
  | .v1 => "X-Ubuntu-Store"
  | .v2 => "Snap-Device-Store"

/-- `hdrSnapDeviceSeries` (store.go line 710). -/
def hdrSnapDeviceSeries : ApiLevel → String
  | .v1 => "X-Ubuntu-Series"
  | .v2 => "Snap-Device-Series"

/-- `hdrSnapDeviceArchitecture` (store.go line 711). -/
def hdrSnapDeviceArchitecture : ApiLevel → String
  | .v1 => "X-Ubuntu-Architecture"
  | .v2 => "Snap-Device-Architecture"

/-- `hdrSnapClassic` (store.go line 712). -/
def hdrSnapClassic : ApiLevel → String
  | .v1 => "X-Ubuntu-Classic"
  | .v2 => "Snap-Classic"

/-- `deviceAuthNeed` (store.go lines 715-720). -/
inductive deviceAuthNeed where
  | preferred
  | customStoreOnly
deriving DecidableEq, Repr

/-- The parts of `requestOptions` (store.go lines 722-738) that shape the
headers. -/
structure RequestOptions where
  Accept : String := ""
  ContentType : String := ""
  APILevel : ApiLevel := .v1
  ExtraHeaders : List (String × String) := []
  DeviceAuthNeed : deviceAuthNeed := .preferred
deriving DecidableEq, Repr

/-- Modelled from the spec: `auth.UserState` (outside the provided sources)
as far as the pipeline reads it; `HasStoreAuth` is "the user has store
credentials", i.e. a non-empty root macaroon. The whole user may be absent
(`none` models a nil pointer). -/
structure UserState where
  StoreMacaroon : String := ""
  StoreDischarges : List String := []
deriving DecidableEq, Repr

/-- `user.HasStoreAuth()` with a possibly-nil user. -/
def hasStoreAuth : Option UserState → Bool
  | some u => u.StoreMacaroon ≠ ""
  | none => false

/-- The store fields read by the request pipeline. -/
structure StoreModel where
  fallbackStoreID : String := ""
  dauthCtx : Option DauthCtx := none
  architecture : String := ""
  series : String := ""
  userAgent : String := ""
  noCDN : Bool := false
deriving Repr

/-- `setStoreID` (store.go lines 683-698): sets the store header and
reports whether the resulting store is custom. -/
def setStoreIDModel (s : StoreModel) (hdrs : List (String × String))
    (apiLevel : ApiLevel) : List (String × String) × Bool :=
  let storeID := s.fallbackStoreID
  let storeID :=
    match s.dauthCtx with
    | some c =>
      match c.storeIDResult with
      | .ok cand => cand
      | .error _ => storeID
    | none => storeID
  if storeID ≠ "" then (qSet hdrs (hdrSnapDeviceStore apiLevel) storeID, true)
  else (hdrs, false)

/-- Errors of `EnsureDeviceSession` (store.go lines 649-674). -/
inductive EnsureErr where
  | noAuthContext
  | deviceErr
  | noSerial
  | refreshErr
deriving DecidableEq, Repr

/-- `EnsureDeviceSession` (store.go lines 649-674): returns the device
state, refreshing the session when there is none but a serial exists. -/
def ensureDeviceSessionModel (dauthCtx : Option DauthCtx) :
    Except EnsureErr DeviceState :=
  match dauthCtx with
  | none => .error .noAuthContext
  | some c =>
    match c.deviceResult with
    | .error _ => .error .deviceErr
    | .ok device =>
      if device.SessionMacaroon ≠ "" then .ok device
      else if device.Serial = "" then .error .noSerial
      else
        match c.refreshResult with
        | .error _ => .error .refreshErr
        | .ok device' => .ok device'

/-- `authenticateDevice` (store.go lines 676-681): attaches the device
authorization header only for a device with a session macaroon. -/
def authenticateDeviceModel (hdrs : List (String × String))
    (device : Option DeviceState) (apiLevel : ApiLevel) : List (String × String) :=
  match device with
  | some d =>
    if d.SessionMacaroon ≠ "" then
      qSet hdrs (hdrSnapDeviceAuthorization apiLevel)
        ("Macaroon root=\"" ++ d.SessionMacaroon ++ "\"")
    else hdrs
  | none => hdrs

/-- The unconditional and option-driven headers `newRequest` sets after the
auth steps (store.go lines 959-983), including the user `Authorization`
header, applied on top of `hdrs`. -/
def setFixedHeaders (s : StoreModel) (reqOptions : RequestOptions)
    (user : Option UserState) (onClassic : Bool) (clientUA : String)
    (hdrs : List (String × String)) : List (String × String) :=
  let level := reqOptions.APILevel
  let hdrs :=
    if hasStoreAuth user then
      qSet hdrs "Authorization"
        ("Macaroon root=\"" ++ ((user.map (fun u => u.StoreMacaroon)).getD "") ++ "\"")
    else hdrs
  let hdrs := qSet hdrs "User-Agent" s.userAgent
  let hdrs := qSet hdrs "Accept" reqOptions.Accept
  let hdrs := qSet hdrs (hdrSnapDeviceArchitecture level) s.architecture
  let hdrs := qSet hdrs (hdrSnapDeviceSeries level) s.series
  let hdrs := qSet hdrs (hdrSnapClassic level) (if onClassic then "true" else "false")
  let hdrs := qSet hdrs "Snap-Device-Capabilities" "default-tracks"
  let hdrs := if clientUA ≠ "" then qSet hdrs "Snap-Client-User-Agent" clientUA else hdrs
  let hdrs := if level = .v1 then qSet hdrs "X-Ubuntu-Wire-Protocol" "1" else hdrs
  let hdrs :=
    if reqOptions.ContentType ≠ "" then qSet hdrs "Content-Type" reqOptions.ContentType
    else hdrs
  reqOptions.ExtraHeaders.foldl (fun h p => qSet h p.1 p.2) hdrs

/-- `newRequest` (store.go lines 933-986), returning the headers of the
request it builds; `.error` means `newRequest` fails and no request is
built at all. `onClassic` is `release.OnClassic`; `clientUA` the value
`ClientUserAgent(ctx)`. -/
def newRequestModel (s : StoreModel) (reqOptions : RequestOptions)
    (user : Option UserState) (onClassic : Bool) (clientUA : String) :
    Except Unit (List (String × String)) :=
  let level := reqOptions.APILevel
  let hdrs0 := (setStoreIDModel s [] level).1
  let customStore := (setStoreIDModel s [] level).2
  let deviceStep : Except Unit (List (String × String)) :=
    if s.dauthCtx.isSome ∧ (customStore ∨ reqOptions.DeviceAuthNeed ≠ .customStoreOnly) then
      match ensureDeviceSessionModel s.dauthCtx with
      | .error .noSerial => .ok hdrs0
      | .error _ => .error ()
      | .ok device => .ok (authenticateDeviceModel hdrs0 (some device) level)
    else .ok hdrs0
  match deviceStep with
  | .error e => .error e
  | .ok hdrs => .ok (setFixedHeaders s reqOptions user onClassic clientUA hdrs)

/-! ## 401 refresh loop (`doRequest`, store.go lines 852-895)

The n-th send of the request is answered by the n-th element of a response
trace; a transport error (or an exhausted trace) is modelled as
`.transportErr`. `refreshOK k` is the outcome of the `refreshAuth` call of
round `k` (it covers `refreshUser` and `refreshDeviceSession`, whose
network exchanges are behind the `AuthContext` collaborator). -/

/-- One HTTP response as `doRequest` inspects it. -/
structure RespM where
  status : Nat
  wwwAuth : String
deriving DecidableEq, Repr

/-- Errors `doRequest` can surface. -/
inductive DoReqErr where
  | transportErr
  | refreshFailed
deriving DecidableEq, Repr

/-- `doRequest` (store.go lines 852-895): returns the delivered response
together with the number of auth-refresh rounds that preceded it. -/
def doRequestModel (userPresent : Bool) (refreshOK : Nat → Bool) :
    List RespM → Nat → Except DoReqErr (RespM × Nat)
  | [], _ => .error .transportErr
  | r :: rest, authRefreshes =>
    let needUser := userPresent && containsStr r.wwwAuth "needs_refresh=1"
    let needDevice := containsStr r.wwwAuth "refresh_device_session=1"
    if r.status = 401 ∧ authRefreshes < 4 ∧ (needUser = true ∨ needDevice = true) then
      if refreshOK authRefreshes then
        doRequestModel userPresent refreshOK rest (authRefreshes + 1)
      else .error .refreshFailed
    else .ok (r, authRefreshes)

/-! ## Download engine (`Download`, store.go lines 1498-1608, and
`downloadImpl`, lines 1633-1765)

File contents are byte lists; the `.partial` file is threaded through the
download loop together with the write position and the resume offset. The
network is an input trace with one `Outcome` per loop iteration. The
SHA3-384 primitive is the `digest` argument (a hex digest in the source,
hence a `String`). The retry strategy `downloadRetryStrategy` caps the loop
at 7 attempts (`retry.LimitCount(7, ...)`); its wall-clock limit is real
time and is not modelled. `httputil.ShouldRetryAttempt` /
`ShouldRetryHttpResponse` (outside the provided sources) are modelled from
the spec: a retry happens on a transport error or on a response matching
the configured status predicate, and only while the strategy grants more
attempts. -/

/-- The outcome of one download-loop iteration's network exchange:
  * `err retryable` — `doRequest` failed (transport error);
  * `resp status retryResp body copyErr` — a response arrived with the
    given status; `retryResp` is the verdict of the configured
    response-status retry predicate; `body` is what `io.Copy` wrote before
    either finishing (`copyErr = none`) or hitting a mid-copy error that is
    (`some true`) or is not (`some false`) retryable. -/
inductive Outcome where
  | err (retryable : Bool)
  | resp (status : Nat) (retryResp : Bool) (body : List Nat) (copyErr : Option Bool)
deriving DecidableEq, Repr

/-- Errors of the download pipeline. -/
inductive DLErr where
  | truncatedTrace
  | resumeOffsetWrong
  | transport
  | buyRequired
  | downloadErr (code : Nat)
  | hashErr (actual expected : String)
deriving DecidableEq, Repr

/-- Result of the download loop: final `.partial` content, verdict, and a
flag recording that the completing write did not leave stale bytes behind
it (`false` exactly when a 200 response answering a range request carried a
body shorter than the data already on disk, store.go lines 1689-1696 paired
with the positional write of `io.Copy`). -/
structure LoopOut where
  file : List Nat
  res : Except DLErr Unit
  clean : Bool
deriving Repr

/-- Writing `body` into `file` at offset `pos` (the semantics of `io.Copy`
onto a file positioned at `pos`). -/
def writeAt (file : List Nat) (pos : Nat) (body : List Nat) : List Nat :=
  file.take pos ++ body ++ file.drop (pos + body.length)

/-- The download loop of `downloadImpl` (store.go lines 1651-1749). `file`
is the `.partial` content, `pos` the file offset, `resume` the resume
offset, `left` the attempts the retry strategy still grants. -/
def downloadLoop (expected : String) (digest : List Nat → String) :
    List Outcome → List Nat → Nat → Nat → Nat → LoopOut
  | [], file, _, _, _ => ⟨file, .error .truncatedTrace, true⟩
  | o :: rest, file, pos, resume, left =>
    -- hasher seeding from the existing prefix (store.go lines 1658-1671)
    if resume > 0 ∧ file.length ≠ resume then ⟨file, .error .resumeOffsetWrong, true⟩
    else
      let h0 : List Nat := if resume > 0 then file else []
      let pos0 := if resume > 0 then file.length else pos
      match o with
      | .err retryable =>
        if retryable ∧ left > 1 then
          downloadLoop expected digest rest file pos0 resume (left - 1)
        else ⟨file, .error .transport, true⟩
      | .resp status retryResp body copyErr =>
        -- server ignored the range request (store.go lines 1689-1696)
        let reset := resume > 0 ∧ status ≠ 206
        let pos1 := if reset then 0 else pos0
        let h1 := if reset then [] else h0
        let resume1 := if reset then 0 else resume
        if retryResp ∧ left > 1 then
          downloadLoop expected digest rest file pos1 resume1 (left - 1)
        else if status = 200 ∨ status = 206 then
          let file' := writeAt file pos1 body
          match copyErr with
          | some retryable =>
            -- mid-copy error: seek to the end and retry (lines 1727-1738)
            if retryable ∧ left > 1 then
              downloadLoop expected digest rest file' file'.length file'.length (left - 1)
            else ⟨file', .error .transport, true⟩
          | none =>
            -- final hash check (lines 1744-1747)
            if expected ≠ "" ∧ expected ≠ digest (h1 ++ body) then
              ⟨file', .error (.hashErr (digest (h1 ++ body)) expected), true⟩
            else ⟨file', .ok (), decide (file.length ≤ pos1 + body.length)⟩
        else if status = 402 then ⟨file, .error .buyRequired, true⟩
        else ⟨file, .error (.downloadErr status), true⟩

/-- How the delta pre-pass of `Download` went:
  * `off` — deltas disabled, or not exactly one delta offered;
  * `failed` — delta download or the xdelta3 tool failed;
  * `produced c` — the tool produced content `c`; `applyDelta`'s own hash
    check (store.go lines 1889-1899) then decides. -/
inductive DeltaCase where
  | off
  | failed
  | produced (content : List Nat)
deriving DecidableEq, Repr

/-- `snap.DownloadInfo` as far as `Download` reads it. -/
structure DownloadInfoM where
  Sha3_384 : String
  Size : Nat := 0
deriving DecidableEq, Repr

/-- Result of `Download`: the content left at `targetPath` on success, and
the accumulated cleanliness flag of the loop invocations used. -/
structure DownloadOut where
  res : Except DLErr (List Nat)
  clean : Bool
deriving Repr

/-- The first full-download stage of `Download` (store.go lines 1521-1576):
run the download loop when there is something left to fetch, else verify
the complete `.partial` directly. -/
def downloadStage1 (digest : List Nat → String) (info : DownloadInfoM)
    (initialPartial : List Nat) (trace : List Outcome) : LoopOut :=
  let resume := initialPartial.length
  if info.Size = 0 ∨ resume < info.Size then
    downloadLoop info.Sha3_384 digest trace initialPartial initialPartial.length resume 7
  else
    -- resume ≥ size: hash the existing file (store.go lines 1563-1576)
    let actual := digest initialPartial
    if info.Sha3_384 ≠ actual then
      ⟨initialPartial, .error (.hashErr actual info.Sha3_384), true⟩
    else ⟨initialPartial, .ok (), true⟩

/-- The full-download part of `Download` (store.go lines 1521-1593): the
first stage, and on a hash mismatch the truncate-to-zero retry-once run of
the plain download loop. -/
def downloadFull (digest : List Nat → String) (info : DownloadInfoM)
    (initialPartial : List Nat) (trace retryTrace : List Outcome) : DownloadOut :=
  let out1 := downloadStage1 digest info initialPartial trace
  match out1.res with
  | .ok _ => ⟨.ok out1.file, out1.clean⟩
  | .error (.hashErr _ _) =>
    -- hash mismatch: truncate to zero and retry once (lines 1577-1593)
    let out2 := downloadLoop info.Sha3_384 digest retryTrace [] 0 0 7
    match out2.res with
    | .ok _ => ⟨.ok out2.file, out2.clean⟩
    | .error e => ⟨.error e, out2.clean⟩
  | .error e => ⟨.error e, out1.clean⟩

/-- `Download` (store.go lines 1498-1608): cache lookup, optional delta
pipeline, then the full download. `cache` maps a SHA3-384 key to cached
content (`cacher.Get`); `trace` drives the first loop invocation and
`retryTrace` the retry-from-scratch one. File-system operations are
modelled as infallible. -/
def downloadModel (digest : List Nat → String) (cache : String → Option (List Nat))
    (delta : DeltaCase) (info : DownloadInfoM) (initialPartial : List Nat)
    (trace retryTrace : List Outcome) : DownloadOut :=
  match cache info.Sha3_384 with
  | some content => ⟨.ok content, true⟩
  | none =>
    let afterDelta : Option (List Nat) :=
      match delta with
      | .off => none
      | .failed => none
      | .produced c =>
        -- applyDelta's hash check (store.go lines 1889-1899); on error the
        -- delta path is abandoned and the full download runs (lines 1512-1518)
        if info.Sha3_384 ≠ "" ∧ info.Sha3_384 ≠ digest c then none else some c
    match afterDelta with
    | some c => ⟨.ok c, true⟩
    | none => downloadFull digest info initialPartial trace retryTrace

/-! ## Concrete fixtures for counterexamples and witnesses -/

/-- A digest function with a constant non-empty value; stands in for the
hex SHA3-384 digest, which is never the empty string (it always has 96 hex
characters). -/
def constDigest : List Nat → String := fun _ => "d"

/-- A digest function recognising the single body used by the download
witness. -/
def digestW : List Nat → String := fun bs => if bs = [7] then "H7" else "other"

/-- An always-missing download cache. -/
def noCache : String → Option (List Nat) := fun _ => none

/-- A concrete stand-in for the SHA-256 primitive in witnesses. -/
def idHash : List Nat → List Nat := fun bs => bs

/-- A context whose device has neither a session macaroon nor a serial. -/
def ctxNoSerial : DauthCtx :=
  ⟨.ok "", .ok ⟨"", ""⟩, .error (), .ok none⟩

/-- A context whose device already has a session macaroon. -/
def ctxWithSession : DauthCtx :=
  ⟨.ok "", .ok ⟨"serial-1", "session-mac"⟩, .error (), .ok none⟩

/-- A context exposing cloud information with an empty cloud name. -/
def ctxEmptyCloudName : DauthCtx :=
  ⟨.error (), .error (), .error (), .ok (some ⟨"", "r", ""⟩)⟩

/-- Store with `ctxNoSerial` installed. -/
def storeNoSerial : StoreModel := { dauthCtx := some ctxNoSerial }

/-- Store with `ctxWithSession` installed. -/
def storeWithSession : StoreModel := { dauthCtx := some ctxWithSession }

/-- The headers `newRequest` builds for `storeWithSession` (used by the C2
witness). -/
def hdrsWithSession : List (String × String) :=
  (newRequestModel storeWithSession {} none false "").toOption.getD []

/-- Concrete action batch for the C5 witness. -/
def actionsW : List SnapAction :=
  [{ Action := "install", InstanceName := "a" },
   { Action := "refresh", InstanceName := "b" },
   { Action := "download", InstanceName := "c" }]

/-- The action JSONs built from `actionsW`. -/
def actionJSONsW : List ActionJSON :=
  (buildActionJSONs (fun _ => "k") 0 0 actionsW).toOption.getD []

/-! # Theorems -/

/-! ## Helper lemmas about `qSet` / `qGet` -/

theorem qGet_nil (k : String) : qGet [] k = none := rfl

theorem qGet_map_replace_self (k v : String) (q : List (String × String))
    (hq : q.any (fun p => p.1 = k) = true) :
    qGet (q.map (fun p => if p.1 = k then (k, v) else p)) k = some v := by
  induction q with
  | nil => simp at hq
  | cons p rest ih =>
    by_cases hp : p.1 = k
    · simp [qGet, hp]
    · have hrest : rest.any (fun p => p.1 = k) = true := by
        simp only [List.any_cons, Bool.or_eq_true, decide_eq_true_eq] at hq
        exact hq.resolve_left hp
      simpa [qGet, hp] using ih hrest

theorem qGet_map_replace_ne (k v k' : String) (h : k' ≠ k)
    (q : List (String × String)) :
    qGet (q.map (fun p => if p.1 = k then (k, v) else p)) k' = qGet q k' := by
  induction q with
  | nil => rfl
  | cons p rest ih =>
    by_cases hp : p.1 = k
    · have hpk' : ¬ p.1 = k' := fun hc => h (hc ▸ hp)
      simpa [qGet, hp, Ne.symm h, hpk'] using ih
    · by_cases hp' : p.1 = k'
      · rw [List.map_cons, if_neg hp]
        simp [qGet, hp']
      · rw [List.map_cons, if_neg hp]
        simpa [qGet, hp'] using ih

theorem qGet_append_single_self (k v : String) (q : List (String × String)) :
    qGet (q ++ [(k, v)]) k = some ((qGet q k).getD v) := by
  induction q with
  | nil => simp [qGet]
  | cons p rest ih =>
    by_cases hp : p.1 = k
    · simp [qGet, hp]
    · simpa [qGet, hp] using ih

theorem qGet_append_single_ne (k v k' : String) (h : k' ≠ k)
    (q : List (String × String)) :
    qGet (q ++ [(k, v)]) k' = qGet q k' := by
  induction q with
  | nil => simp [qGet, Ne.symm h]
  | cons p rest ih =>
    by_cases hp : p.1 = k'
    · simp [qGet, hp]
    · simpa [qGet, hp] using ih

theorem qGet_qSet_self (q : List (String × String)) (k v : String) :
    qGet (qSet q k v) k = some v := by
  unfold qSet
  by_cases hq : q.any (fun p => p.1 = k)
  · simp only [hq, if_true]
    exact qGet_map_replace_self k v q hq
  · rw [if_neg hq]
    have hnone : qGet q k = none := by
      induction q with
      | nil => rfl
      | cons p rest ih =>
        simp only [List.any_cons, Bool.or_eq_true, decide_eq_true_eq] at hq
        push_neg at hq
        simp only [qGet, if_neg hq.1]
        exact ih (by simpa using hq.2)
    rw [qGet_append_single_self, hnone]
    rfl

theorem qGet_qSet_ne (q : List (String × String)) (k v k' : String) (h : k' ≠ k) :
    qGet (qSet q k v) k' = qGet q k' := by
  unfold qSet
  by_cases hq : q.any (fun p => p.1 = k)
  · simp only [hq, if_true]
    exact qGet_map_replace_ne k v k' h q
  · rw [if_neg hq]
    exact qGet_append_single_ne k v k' h q

theorem qGet_foldl_qSet_ne (l : List (String × String)) (k : String)
    (h : ∀ p ∈ l, p.1 ≠ k) :
    ∀ h0, qGet (l.foldl (fun hh p => qSet hh p.1 p.2) h0) k = qGet h0 k := by
  induction l with
  | nil => intro h0; rfl
  | cons p rest ih =>
    intro h0
    have hp : p.1 ≠ k := h p (List.mem_cons_self p rest)
    have hrest : ∀ p' ∈ rest, p'.1 ≠ k := fun p' hp' => h p' (List.mem_cons_of_mem p hp')
    simp only [List.foldl_cons]
    rw [ih hrest, qGet_qSet_ne _ _ _ _ (Ne.symm hp)]

/-! ## C9 — legacy forced-API-URL environment variable -/

/-- C9 counterexample: the claim says a `SNAPPY_FORCE_CPI_URL` value ending
in `api/v1/` overrides the base URL with the suffix stripped, and that any
other non-empty value defers to `SNAPPY_FORCE_API_URL`. For the value
`"api/v1/"` itself the stripped override is empty, so the code falls back
to the default API URL and also skips `SNAPPY_FORCE_API_URL` — neither of
the claim's two predictions holds. -/
theorem C9_counterexample :
    hasSuffixStr "api/v1/" "api/v1/" = true ∧
    trimSuffixStr "api/v1/" "api/v1/" = "" ∧
    storeURLModel "api/v1/" "https://env.example/" "https://api.snapcraft.io/" =
      "https://api.snapcraft.io/" := by
  refine ⟨rfl, rfl, rfl⟩

/-- C9 (amended): `SNAPPY_FORCE_CPI_URL` overrides the base URL only when
it ends in `api/v1/` and the stripped prefix is non-empty; the exact value
`"api/v1/"` is dropped together with `SNAPPY_FORCE_API_URL`, yielding the
default; any value not ending in the suffix is ignored and
`SNAPPY_FORCE_API_URL` or the default is used instead. -/
theorem C9_legacy_cpi_override (cpi apiEnv api : String) :
    (cpi ≠ "" → hasSuffixStr cpi "api/v1/" = true → trimSuffixStr cpi "api/v1/" ≠ "" →
      storeURLModel cpi apiEnv api = trimSuffixStr cpi "api/v1/") ∧
    (cpi ≠ "" → hasSuffixStr cpi "api/v1/" = true → trimSuffixStr cpi "api/v1/" = "" →
      storeURLModel cpi apiEnv api = api) ∧
    (¬ (cpi ≠ "" ∧ hasSuffixStr cpi "api/v1/" = true) →
      storeURLModel cpi apiEnv api = if apiEnv ≠ "" then apiEnv else api) := by
  refine ⟨?_, ?_, ?_⟩
  · intro h1 h2 h3
    simp [storeURLModel, h1, h2, h3]
  · intro h1 h2 h3
    simp [storeURLModel, h1, h2, h3]
  · intro h1
    by_cases ha : apiEnv = ""
    · simp [storeURLModel, h1, ha]
    · simp [storeURLModel, h1, ha]

/-- C9 witness: the three legs of `C9_legacy_cpi_override` at concrete
inputs. -/
theorem C9_witness :
    (storeURLModel "https://x/api/v1/" "E" "API" = trimSuffixStr "https://x/api/v1/" "api/v1/") ∧
    (storeURLModel "api/v1/" "E" "API" = "API") ∧
    (storeURLModel "ftp://y/" "E" "API" = if ("E" : String) ≠ "" then "E" else "API") :=
  ⟨(C9_legacy_cpi_override "https://x/api/v1/" "E" "API").1 (by decide) (by decide) (by decide),
   (C9_legacy_cpi_override "api/v1/" "E" "API").2.1 (by decide) (by decide) (by decide),
   (C9_legacy_cpi_override "ftp://y/" "E" "API").2.2 (by decide)⟩

/-! ## C10 — empty SnapAction input -/

/-- C10: a `SnapAction` call with an empty current-snap list and an empty
action list returns a nil result list and a `SnapActionError` whose
`NoResults` flag is true, without issuing any HTTP request (store.go lines
2309-2312). -/
theorem C10_snapaction_empty (sha256 : List Nat → List Nat)
    (currentSnaps : List CurrentSnap) (actions : List SnapAction) (privacyKey : String)
    (hc : currentSnaps = []) (ha : actions = []) :
    snapActionModel sha256 currentSnaps actions privacyKey =
      .early none { NoResults := true } := by
  subst hc; subst ha; rfl

/-- C10 witness. -/
theorem C10_witness :
    snapActionModel idHash [] [] "" = .early none { NoResults := true } :=
  C10_snapaction_empty idHash [] [] "" rfl rfl

/-! ## C6 — Find query denylist -/

/-- C6 counterexample: a private search without a user returns
`ErrUnauthenticated` (store.go lines 1200-1202) even when the trimmed query
contains a denylist character, so the claim "any such query produces the
BadQuery error" fails as stated. -/
theorem C6_counterexample :
    containsAnyStr (trimSpaceStr "a+b") denylistChars = true ∧
    findModel ⟨[], "amd64", false⟩ { Query := "a+b", Private := true } false =
      .error .unauthenticated ∧
    (Except.error FindErr.unauthenticated : Except FindErr (List (String × String))) ≠
      .error .badQuery := by
  refine ⟨rfl, rfl, fun hc => absurd (Except.error.inj hc) (by decide)⟩

/-- C6 (amended): unless the search is private with no user supplied (which
returns `ErrUnauthenticated` first, also without a network call), a trimmed
query containing any denylist character makes `Find` return `ErrBadQuery`
without issuing any network call. -/
theorem C6_find_bad_query (cfg : FindCfg) (search : Search) (userPresent : Bool)
    (hauth : search.Private = true → userPresent = true)
    (hq : containsAnyStr (trimSpaceStr search.Query) denylistChars = true) :
    findModel cfg search userPresent = .error .badQuery := by
  unfold findModel
  rw [if_neg (fun hc => hc.2 (hauth hc.1))]
  simp only [hq, if_true]

/-- C6 witness. -/
theorem C6_witness :
    findModel ⟨[], "amd64", false⟩ { Query := "x+y" } false = .error .badQuery :=
  C6_find_bad_query ⟨[], "amd64", false⟩ { Query := "x+y" } false (by decide) (by decide)

/-! ## C7 — Find scope policy -/

theorem findConfinement_channel (c : Bool) (q : List (String × String)) :
    qGet (findConfinement c q) "channel" = qGet q "channel" := by
  unfold findConfinement
  split_ifs <;> rw [qGet_qSet_ne _ _ _ _ (by decide)]

theorem findBaseQuery_channel_none (cfg : FindCfg) (search : Search)
    (searchTerm : String) :
    qGet (findBaseQuery cfg search searchTerm) "channel" = none := by
  unfold findBaseQuery
  split_ifs <;>
    simp only [qGet_qSet_ne _ _ _ _ (show ("channel" : String) ≠ "fields" by decide),
      qGet_qSet_ne _ _ _ _ (show ("channel" : String) ≠ "architecture" by decide),
      qGet_qSet_ne _ _ _ _ (show ("channel" : String) ≠ "private" by decide),
      qGet_qSet_ne _ _ _ _ (show ("channel" : String) ≠ "name" by decide),
      qGet_qSet_ne _ _ _ _ (show ("channel" : String) ≠ "common-id" by decide),
      qGet_qSet_ne _ _ _ _ (show ("channel" : String) ≠ "q" by decide),
      qGet_qSet_ne _ _ _ _ (show ("channel" : String) ≠ "category" by decide),
      qGet_nil]

/-- C7 counterexample: with a denylisted query and a scope that is neither
empty nor "wide", `Find` returns `ErrBadQuery`, not `ErrInvalidScope`
(store.go checks the query first, lines 1212-1214), so the claim's "any
other scope value produces InvalidScope" fails as stated. -/
theorem C7_counterexample :
    (("x" : String) ≠ "" ∧ ("x" : String) ≠ "wide") ∧
    findModel ⟨[], "amd64", false⟩ { Query := "a+b", Scope := "x" } false =
      .error .badQuery ∧
    (Except.error FindErr.badQuery : Except FindErr (List (String × String))) ≠
      .error .invalidScope := by
  refine ⟨by decide, rfl, fun hc => absurd (Except.error.inj hc) (by decide)⟩

/-- C7 (amended): provided the earlier validations pass (the search is not
private-without-user and the trimmed query is clean), an empty `Scope` sets
`channel=stable` on the issued v2 find request; a scope that is neither
empty nor "wide" yields `ErrInvalidScope` without a network call; and scope
"wide" issues the request with no `channel` parameter. -/
theorem C7_find_scope (cfg : FindCfg) (search : Search) (userPresent : Bool)
    (hauth : search.Private = true → userPresent = true)
    (hq : containsAnyStr (trimSpaceStr search.Query) denylistChars = false) :
    (search.Scope = "" →
      findModel cfg search userPresent =
        .ok (findConfinement cfg.onClassic
          (qSet (findBaseQuery cfg search (trimSpaceStr search.Query)) "channel" "stable")) ∧
      qGet (findConfinement cfg.onClassic
          (qSet (findBaseQuery cfg search (trimSpaceStr search.Query)) "channel" "stable"))
        "channel" = some "stable") ∧
    (search.Scope ≠ "" → search.Scope ≠ "wide" →
      findModel cfg search userPresent = .error .invalidScope) ∧
    (search.Scope = "wide" →
      findModel cfg search userPresent =
        .ok (findConfinement cfg.onClassic
          (findBaseQuery cfg search (trimSpaceStr search.Query))) ∧
      qGet (findConfinement cfg.onClassic
          (findBaseQuery cfg search (trimSpaceStr search.Query))) "channel" = none) := by
  have h1 : ¬ (search.Private ∧ ¬ userPresent) := fun hc => hc.2 (hauth hc.1)
  refine ⟨?_, ?_, ?_⟩
  · intro hs
    refine ⟨?_, ?_⟩
    · unfold findModel
      rw [if_neg h1]
      simp only [hq, Bool.false_eq_true, if_false]
      rw [if_pos hs]
    · rw [findConfinement_channel, qGet_qSet_self]
  · intro hs1 hs2
    unfold findModel
    rw [if_neg h1]
    simp only [hq, Bool.false_eq_true, if_false]
    rw [if_neg hs1, if_pos hs2]
  · intro hs
    refine ⟨?_, ?_⟩
    · unfold findModel
      rw [if_neg h1]
      simp only [hq, Bool.false_eq_true, if_false]
      rw [if_neg (fun hc => by simp [hs] at hc), if_neg (fun hc => hc hs)]
    · rw [findConfinement_channel, findBaseQuery_channel_none]

/-- C7 witness: the invalid-scope leg of `C7_find_scope` at a concrete
input. -/
theorem C7_witness :
    findModel ⟨[], "amd64", false⟩ { Query := "ok", Scope := "zzz" } true =
      .error .invalidScope :=
  (C7_find_scope ⟨[], "amd64", false⟩ { Query := "ok", Scope := "zzz" } true
    (by decide) (by decide)).2.1 (by decide) (by decide)

/-! ## C8 — Snap-CDN header -/

theorem goJoin_acc_data_ne (xs : List String) :
    ∀ acc : String, acc.data ≠ [] →
      (xs.foldl (fun acc y => acc ++ " " ++ y) acc).data ≠ [] := by
  induction xs with
  | nil => intro acc h; exact h
  | cons y ys ih =>
    intro acc h
    apply ih
    intro hc
    have hlen := congrArg List.length hc
    simp [String.data_append] at hlen

theorem goJoin_cons_ne_empty (x : String) (xs : List String) (hx : x.data ≠ []) :
    goJoin " " (x :: xs) ≠ "" := by
  intro hc
  have hc' : (xs.foldl (fun acc y => acc ++ " " ++ y) x) = "" := hc
  exact goJoin_acc_data_ne xs x hx (by rw [hc'])

theorem str_append_data_ne (a b : String) (ha : a.data ≠ []) : (a ++ b).data ≠ [] := by
  intro hc
  have hlen := congrArg List.length hc
  simp [String.data_append] at hlen
  exact ha (List.length_eq_zero.mp hlen.1)

/-- `qGet` of the `Snap-CDN` header on the headers `downloadReqOpts`
builds: present exactly when the computed value is non-empty. -/
theorem downloadReqOptsHeaders_cdn (ch : String) (opts : Option DownloadOptionsM) :
    qGet (downloadReqOptsHeaders ch opts) "Snap-CDN" =
      if ch = "" then none else some ch := by
  unfold downloadReqOptsHeaders
  have hne : ("Snap-CDN" : String) ≠ "Snap-Refresh-Reason" := by decide
  rcases opts with _ | o
  · by_cases h : ch = ""
    · simp [h, qGet_nil]
    · simp [h, qGet_qSet_self]
  · by_cases hA : o.IsAutoRefresh
    · by_cases h : ch = ""
      · simp [h, hA, qGet_qSet_ne _ _ _ _ hne, qGet_nil]
      · simp [h, hA, qGet_qSet_ne _ _ _ _ hne, qGet_qSet_self]
    · by_cases h : ch = ""
      · simp [h, hA, qGet_nil]
      · simp [h, hA, qGet_qSet_self]

/-- C8 counterexample: the source always emits the `cloud-name` part, even
when the cloud name is empty (store.go line 1011), while the claim says
empty fields are omitted. `cdnHeaderSpecText` is the claim's reading. -/
theorem C8_counterexample :
    cdnHeaderModel false (some ctxEmptyCloudName) = .ok "cloud-name=\"\" region=\"r\"" ∧
    cdnHeaderSpecText false (some ctxEmptyCloudName) = .ok "region=\"r\"" ∧
    ("cloud-name=\"\" region=\"r\"" : String) ≠ "region=\"r\"" := by
  refine ⟨rfl, rfl, by decide⟩

/-- C8 (amended): with the no-CDN override the request carries
`Snap-CDN: none`; without a device-and-auth context, or when it exposes no
cloud information, no `Snap-CDN` header is sent; when cloud information is
available the value is composed of a `cloud-name="…"` part (always present,
quoted, possibly empty) followed by `region="…"` and
`availability-zone="…"` parts that are omitted when empty. -/
theorem C8_cdn_header (noCDN : Bool) (dauthCtx : Option DauthCtx)
    (opts : Option DownloadOptionsM) :
    (noCDN = true → ∀ hs, downloadHeaders noCDN dauthCtx opts = .ok hs →
      qGet hs "Snap-CDN" = some "none") ∧
    (noCDN = false → dauthCtx = none →
      ∀ hs, downloadHeaders noCDN dauthCtx opts = .ok hs →
        qGet hs "Snap-CDN" = none) ∧
    (∀ c, noCDN = false → dauthCtx = some c → c.cloudInfoResult = .ok none →
      ∀ hs, downloadHeaders noCDN dauthCtx opts = .ok hs →
        qGet hs "Snap-CDN" = none) ∧
    (∀ c ci, noCDN = false → dauthCtx = some c → c.cloudInfoResult = .ok (some ci) →
      ∀ hs, downloadHeaders noCDN dauthCtx opts = .ok hs →
        qGet hs "Snap-CDN" = some (goJoin " "
          (["cloud-name=" ++ goQuote ci.Name] ++
           (if ci.Region ≠ "" then ["region=" ++ goQuote ci.Region] else []) ++
           (if ci.AvailabilityZone ≠ "" then
             ["availability-zone=" ++ goQuote ci.AvailabilityZone] else [])))) := by
  refine ⟨?_, ?_, ?_, ?_⟩
  · intro hn hs hok
    subst hn
    unfold downloadHeaders cdnHeaderModel at hok
    simp only [if_true] at hok
    cases hok
    rw [downloadReqOptsHeaders_cdn]
    rfl
  · intro hn hctx hs hok
    subst hn; subst hctx
    unfold downloadHeaders cdnHeaderModel at hok
    simp only [Bool.false_eq_true, if_false] at hok
    cases hok
    rw [downloadReqOptsHeaders_cdn]
    rfl
  · intro c hn hctx hci hs hok
    subst hn; subst hctx
    unfold downloadHeaders cdnHeaderModel at hok
    simp only [Bool.false_eq_true, if_false, hci] at hok
    cases hok
    rw [downloadReqOptsHeaders_cdn]
    rfl
  · intro c ci hn hctx hci hs hok
    subst hn; subst hctx
    unfold downloadHeaders cdnHeaderModel at hok
    simp only [Bool.false_eq_true, if_false, hci] at hok
    injection hok with hok
    subst hok
    rw [downloadReqOptsHeaders_cdn]
    rcases Decidable.em (ci.Region = "") with hr | hr <;>
      rcases Decidable.em (ci.AvailabilityZone = "") with ha | ha <;>
      simp only [hr, ha, ne_eq, not_true_eq_false, not_false_eq_true, if_true, if_false,
        ite_true, ite_false, List.append_nil, List.nil_append, List.append_assoc,
        List.singleton_append, List.cons_append] <;>
      rw [if_neg (goJoin_cons_ne_empty _ _ (str_append_data_ne _ _ (by decide)))]

/-- C8 witness: the cloud-information leg of `C8_cdn_header` at a concrete
input. -/
theorem C8_witness :
    qGet ((downloadHeaders false (some ctxEmptyCloudName) none).toOption.getD [])
        "Snap-CDN" =
      some (goJoin " "
        (["cloud-name=" ++ goQuote ""] ++
         (if ("r" : String) ≠ "" then ["region=" ++ goQuote "r"] else []) ++
         (if ("" : String) ≠ "" then ["availability-zone=" ++ goQuote ""] else []))) :=
  (C8_cdn_header false (some ctxEmptyCloudName) none).2.2.2 ctxEmptyCloudName
    ⟨"", "r", ""⟩ rfl rfl rfl _ (by rfl)

/-! ## C4 — instance-key privacy scheme -/

theorem b64urlDigit_mem (n : Nat) (h : n < 64) : b64urlDigit n ∈ b64urlAlphabet := by
  unfold b64urlDigit
  have hlen : b64urlAlphabet.length = 64 := by decide
  rw [List.getD_eq_getElem _ _ (by omega)]
  exact List.getElem_mem _

theorem base64RawURL_chars :
    ∀ l : List Nat, (∀ b ∈ l, b < 256) → ∀ c ∈ base64RawURL l, c ∈ b64urlAlphabet
  | [], _, c, hc => by simp [base64RawURL] at hc
  | [b1], h, c, hc => by
    have hb1 : b1 < 256 := h b1 (by simp)
    simp only [base64RawURL, List.mem_cons, List.not_mem_nil, or_false] at hc
    rcases hc with hc | hc <;> subst hc
    · exact b64urlDigit_mem _ (by omega)
    · exact b64urlDigit_mem _ (by omega)
  | [b1, b2], h, c, hc => by
    have hb1 : b1 < 256 := h b1 (by simp)
    have hb2 : b2 < 256 := h b2 (by simp)
    simp only [base64RawURL, List.mem_cons, List.not_mem_nil, or_false] at hc
    rcases hc with hc | hc | hc <;> subst hc
    · exact b64urlDigit_mem _ (by omega)
    · exact b64urlDigit_mem _ (by omega)
    · exact b64urlDigit_mem _ (by omega)
  | b1 :: b2 :: b3 :: rest, h, c, hc => by
    have hb1 : b1 < 256 := h b1 (by simp)
    have hb2 : b2 < 256 := h b2 (by simp)
    have hb3 : b3 < 256 := h b3 (by simp)
    simp only [base64RawURL, List.mem_cons] at hc
    rcases hc with hc | hc | hc | hc | hc
    · subst hc; exact b64urlDigit_mem _ (by omega)
    · subst hc; exact b64urlDigit_mem _ (by omega)
    · subst hc; exact b64urlDigit_mem _ (by omega)
    · subst hc; exact b64urlDigit_mem _ (by omega)
    · exact base64RawURL_chars rest (fun b hb => h b (by simp [hb])) c hc

/-- C4: for a current snap whose instance name carries a non-empty local
instance key, and a non-empty salt, the wire instance-key equals
`<snap-id>:<base64url(sha256(snap-id || local-key || salt))>`; with no local
key part the raw snap-id is used; and (privacy) every character of the wire
key comes from the snap-id, is the colon, or belongs to the base64url
alphabet — the raw local key's own characters never appear beyond those.
`sha256` is the external SHA-256 primitive (any function producing bytes
below 256, as the real one does). -/
theorem C4_instance_key (sha256 : List Nat → List Nat) (curSnap : CurrentSnap)
    (salt : String)
    (hbytes : ∀ bs, ∀ b ∈ sha256 bs, b < 256) :
    ((SplitInstanceName curSnap.InstanceName).2 ≠ "" → salt ≠ "" →
      genInstanceKey sha256 curSnap salt =
        .ok (curSnap.SnapID ++ ":" ++ String.mk (base64RawURL (sha256
          (strBytes curSnap.SnapID ++
           strBytes (SplitInstanceName curSnap.InstanceName).2 ++ strBytes salt)))) ∧
      (∀ res, genInstanceKey sha256 curSnap salt = .ok res →
        ∀ c ∈ res.data, c ∈ curSnap.SnapID.data ∨ c = ':' ∨ c ∈ b64urlAlphabet)) ∧
    ((SplitInstanceName curSnap.InstanceName).2 = "" →
      genInstanceKey sha256 curSnap salt = .ok curSnap.SnapID) ∧
    ((SplitInstanceName curSnap.InstanceName).2 ≠ "" → salt = "" →
      genInstanceKey sha256 curSnap salt = .error ()) := by
  refine ⟨fun hkey hsalt => ⟨?_, ?_⟩, fun hkey => ?_, fun hkey hsalt => ?_⟩
  · unfold genInstanceKey
    rw [if_neg hkey, if_neg hsalt]
  · intro res hres c hc
    unfold genInstanceKey at hres
    rw [if_neg hkey, if_neg hsalt] at hres
    injection hres with hres
    subst hres
    rw [String.data_append, String.data_append] at hc
    rcases List.mem_append.mp hc with hc | hc
    · rcases List.mem_append.mp hc with hc | hc
      · exact Or.inl hc
      · refine Or.inr (Or.inl ?_)
        simpa using hc
    · refine Or.inr (Or.inr ?_)
      exact base64RawURL_chars _ (hbytes _) c hc
  · unfold genInstanceKey
    rw [if_pos hkey]
  · unfold genInstanceKey
    rw [if_neg hkey, if_pos hsalt]

/-- C4 witness: `C4_instance_key` at a concrete snap with instance name
`"pkg_foo"`, snap-id `"id1"` and salt `"s"`, with byte-valued stand-in hash. -/
theorem C4_witness :
    genInstanceKey (fun _ => [0, 63, 255]) { InstanceName := "pkg_foo", SnapID := "id1" } "s" =
      .ok ("id1" ++ ":" ++ String.mk (base64RawURL ((fun _ => [0, 63, 255])
        (strBytes "id1" ++ strBytes (SplitInstanceName "pkg_foo").2 ++ strBytes "s")))) :=
  ((C4_instance_key (fun _ => [0, 63, 255]) { InstanceName := "pkg_foo", SnapID := "id1" } "s"
    (by intro bs b hb; simp at hb; omega)).1 (by decide) (by decide)).1

/-! ## C5 — epoch policy in the snap-action request body -/

theorem actionFields_epoch (j : ActionJSON) :
    (actionFields j).filter (fun p => p.1 = "epoch") =
      (match j.Epoch with
       | none => []
       | some none => [("epoch", JVal.null)]
       | some (some e) => [("epoch", JVal.epochVal e)]) := by
  unfold actionFields
  rcases j.Epoch with _ | (_ | e) <;>
    rcases j.IgnoreValidation with _ | b <;>
    split_ifs <;>
    simp [List.filter_append, List.filter]

/-- C5: in the snap-action request body, every built action of kind
`install` or `download` carries exactly one `epoch` field, which is JSON
null when the caller's epoch is zero and the caller's epoch otherwise;
every `refresh` action carries no `epoch` field at all (store.go lines
2471-2482 together with the `omitempty`-tagged `Epoch interface{}` field of
`snapActionJSON`, lines 2242-2259). -/
theorem C5_epoch_policy (inKey : String → String) :
    ∀ (actions : List SnapAction) (installNum downloadNum : Nat) (js : List ActionJSON),
      buildActionJSONs inKey installNum downloadNum actions = .ok js →
      List.Forall₂ (fun (a : SnapAction) (j : ActionJSON) =>
        ((a.Action = "install" ∨ a.Action = "download") →
          (actionFields j).filter (fun p => p.1 = "epoch") =
            [("epoch", if a.Epoch.IsZero then JVal.null else JVal.epochVal a.Epoch)]) ∧
        (a.Action = "refresh" →
          (actionFields j).filter (fun p => p.1 = "epoch") = [])) actions js := by
  intro actions
  induction actions with
  | nil =>
    intro iN dN js h
    injection h with h
    subst h
    exact List.Forall₂.nil
  | cons a rest ih =>
    intro iN dN js h
    rw [buildActionJSONs] at h
    repeat' split at h
    all_goals try exact Except.noConfusion h
    all_goals try simp only [] at h
    all_goals repeat' split at h
    all_goals first
      | exact Except.noConfusion h
      | (injection h with h; subst h
         refine List.Forall₂.cons ⟨?_, ?_⟩ (ih _ _ _ (by assumption)) <;>
           (intro hA
            clear ih
            try rcases hA with hA | hA
            all_goals simp_all [actionFields_epoch]))

/-- C5 witness: `C5_epoch_policy` on a concrete install/refresh/download
batch. -/
theorem C5_witness :
    List.Forall₂ (fun (a : SnapAction) (j : ActionJSON) =>
      ((a.Action = "install" ∨ a.Action = "download") →
        (actionFields j).filter (fun p => p.1 = "epoch") =
          [("epoch", if a.Epoch.IsZero then JVal.null else JVal.epochVal a.Epoch)]) ∧
      (a.Action = "refresh" →
        (actionFields j).filter (fun p => p.1 = "epoch") = [])) actionsW actionJSONsW :=
  C5_epoch_policy (fun _ => "k") actionsW 0 0 actionJSONsW (by rfl)

/-! ## C2 — device-authorization header attachment -/

theorem setFixedHeaders_device_key (s : StoreModel) (reqOptions : RequestOptions)
    (user : Option UserState) (onClassic : Bool) (clientUA : String)
    (hdrs : List (String × String))
    (hx : ∀ p ∈ reqOptions.ExtraHeaders, p.1 ≠ hdrSnapDeviceAuthorization reqOptions.APILevel) :
    qGet (setFixedHeaders s reqOptions user onClassic clientUA hdrs)
        (hdrSnapDeviceAuthorization reqOptions.APILevel) =
      qGet hdrs (hdrSnapDeviceAuthorization reqOptions.APILevel) := by
  obtain ⟨Accept, ContentType, APILevel, ExtraHeaders, DeviceAuthNeed⟩ := reqOptions
  unfold setFixedHeaders
  dsimp only at hx ⊢
  rw [qGet_foldl_qSet_ne _ _ hx]
  cases APILevel <;>
    simp only [hdrSnapDeviceAuthorization, hdrSnapDeviceArchitecture,
      hdrSnapDeviceSeries, hdrSnapClassic] <;>
    split_ifs <;>
    simp [qGet_qSet_ne]

theorem qGet_setStoreID_device (s : StoreModel) (level : ApiLevel) :
    qGet (setStoreIDModel s [] level).1 (hdrSnapDeviceAuthorization level) = none := by
  unfold setStoreIDModel
  dsimp only
  cases level <;> (repeat' split) <;>
    simp [hdrSnapDeviceAuthorization, hdrSnapDeviceStore, qGet_qSet_ne, qGet_nil]

/-- C2 counterexample: with a device-and-auth context present and a request
that prefers device auth, but a device that has neither a session macaroon
nor a serial, `newRequest` succeeds without attaching the
device-authorization header (store.go lines 946-957, the `ErrNoSerial`
skip), so the claimed "if and only if" fails in the "if" direction. -/
theorem C2_counterexample :
    (newRequestModel storeNoSerial {} none false "").map
        (fun hdrs => qGet hdrs (hdrSnapDeviceAuthorization ApiLevel.v1)) = .ok none ∧
    storeNoSerial.dauthCtx.isSome = true ∧
    ({} : RequestOptions).DeviceAuthNeed ≠ deviceAuthNeed.customStoreOnly := by
  refine ⟨rfl, rfl, by decide⟩

/-- C2 (amended): for a request `newRequest` builds successfully (extra
headers not clashing with the device-auth header name), the
device-authorization header is attached if and only if a device-and-auth
context is present, AND the store is custom or the request's device-auth
need is not custom-store-only, AND a device session is actually available —
`EnsureDeviceSession` yields a device with a non-empty session macaroon. -/
theorem C2_device_auth_iff (s : StoreModel) (reqOptions : RequestOptions)
    (user : Option UserState) (onClassic : Bool) (clientUA : String)
    (hdrs : List (String × String))
    (hok : newRequestModel s reqOptions user onClassic clientUA = .ok hdrs)
    (hx : ∀ p ∈ reqOptions.ExtraHeaders, p.1 ≠ hdrSnapDeviceAuthorization reqOptions.APILevel) :
    (qGet hdrs (hdrSnapDeviceAuthorization reqOptions.APILevel)).isSome = true ↔
      (s.dauthCtx.isSome = true ∧
       ((setStoreIDModel s [] reqOptions.APILevel).2 = true ∨
         reqOptions.DeviceAuthNeed ≠ deviceAuthNeed.customStoreOnly) ∧
       ∃ d, ensureDeviceSessionModel s.dauthCtx = .ok d ∧ d.SessionMacaroon ≠ "") := by
  unfold newRequestModel at hok
  simp only [] at hok
  by_cases hg : s.dauthCtx.isSome = true ∧
      ((setStoreIDModel s [] reqOptions.APILevel).2 = true ∨
        reqOptions.DeviceAuthNeed ≠ deviceAuthNeed.customStoreOnly)
  · rw [if_pos hg] at hok
    cases hens : ensureDeviceSessionModel s.dauthCtx with
    | error e =>
      rw [hens] at hok
      cases e with
      | noSerial =>
        injection hok with hok
        subst hok
        rw [setFixedHeaders_device_key _ _ _ _ _ _ hx, qGet_setStoreID_device]
        simp only [Option.isSome_none, Bool.false_eq_true, false_iff]
        rintro ⟨-, -, d, hd, -⟩
        cases hd
      | noAuthContext => exact Except.noConfusion hok
      | deviceErr => exact Except.noConfusion hok
      | refreshErr => exact Except.noConfusion hok
    | ok d =>
      rw [hens] at hok
      injection hok with hok
      subst hok
      rw [setFixedHeaders_device_key _ _ _ _ _ _ hx]
      simp only [authenticateDeviceModel]
      by_cases hsm : d.SessionMacaroon = ""
      · rw [if_neg (by simp [hsm]), qGet_setStoreID_device]
        simp only [Option.isSome_none, Bool.false_eq_true, false_iff]
        rintro ⟨-, -, d', hd', hsm'⟩
        injection hd' with hd'
        subst hd'
        exact hsm' hsm
      · rw [if_pos hsm, qGet_qSet_self]
        simp only [Option.isSome_some, true_iff]
        exact ⟨hg.1, hg.2, d, rfl, hsm⟩
  · rw [if_neg hg] at hok
    injection hok with hok
    subst hok
    rw [setFixedHeaders_device_key _ _ _ _ _ _ hx, qGet_setStoreID_device]
    simp only [Option.isSome_none, Bool.false_eq_true, false_iff]
    rintro ⟨h1, h2, -⟩
    exact hg ⟨h1, h2⟩

/-- C2 witness: `C2_device_auth_iff` at a store whose device already has a
session macaroon. -/
theorem C2_witness :
    (qGet hdrsWithSession (hdrSnapDeviceAuthorization ApiLevel.v1)).isSome = true ↔
      (storeWithSession.dauthCtx.isSome = true ∧
       ((setStoreIDModel storeWithSession [] ApiLevel.v1).2 = true ∨
         ({} : RequestOptions).DeviceAuthNeed ≠ deviceAuthNeed.customStoreOnly) ∧
       ∃ d, ensureDeviceSessionModel storeWithSession.dauthCtx = .ok d ∧
         d.SessionMacaroon ≠ "") :=
  C2_device_auth_iff storeWithSession {} none false "" hdrsWithSession (by rfl)
    (fun p hp => absurd hp (List.not_mem_nil p))

/-! ## C3 — 401-driven auth refresh in `doRequest` -/

theorem doRequestModel_ok_spec (userPresent : Bool) (refreshOK : Nat → Bool) :
    ∀ (trace : List RespM) (k0 : Nat) (r : RespM) (k : Nat), k0 ≤ 4 →
      doRequestModel userPresent refreshOK trace k0 = .ok (r, k) →
      k0 ≤ k ∧ k ≤ 4 ∧ trace.get? (k - k0) = some r ∧
      ∀ i, i < k - k0 → ∃ ri, trace.get? i = some ri ∧ ri.status = 401 ∧
        ((userPresent && containsStr ri.wwwAuth "needs_refresh=1") = true ∨
          containsStr ri.wwwAuth "refresh_device_session=1" = true) ∧
        refreshOK (k0 + i) = true := by
  intro trace
  induction trace with
  | nil => intro k0 r k hk0 h; exact Except.noConfusion h
  | cons resp rest ih =>
    intro k0 r k hk0 h
    rw [doRequestModel] at h
    split at h
    · rename_i hcond
      split at h
      · rename_i hro
        obtain ⟨h1, h2, h3, h4⟩ := ih (k0 + 1) r k (by omega) h
        refine ⟨by omega, h2, ?_, ?_⟩
        · have hk : k - k0 = (k - (k0 + 1)) + 1 := by omega
          rw [hk]
          simpa using h3
        · intro i hi
          cases i with
          | zero =>
            exact ⟨resp, rfl, hcond.1, hcond.2.2, by simpa using hro⟩
          | succ j =>
            obtain ⟨ri, hri1, hri2, hri3, hri4⟩ := h4 j (by omega)
            refine ⟨ri, by simpa using hri1, hri2, hri3, ?_⟩
            have : k0 + (j + 1) = k0 + 1 + j := by omega
            rw [this]
            exact hri4
      · exact Except.noConfusion h
    · injection h with h
      have h1 : resp = r := congrArg Prod.fst h
      have h2 : k0 = k := congrArg Prod.snd h
      subst h1
      subst h2
      refine ⟨Nat.le_refl _, hk0, by simp, ?_⟩
      intro i hi
      omega

/-- C3: whenever `doRequest` returns a response, at most four transparent
auth-refresh rounds happened (hence at most five HTTP sends in total: the
returned response is the `(k+1)`-th element of the response trace); every
earlier response was a 401 whose `WWW-Authenticate` value carried a refresh
hint for credentials that could be refreshed (`needs_refresh=1` for the
user — only honoured when a user is present — or `refresh_device_session=1`
for the device), the indicated refresh succeeded, and the request was
resent (store.go lines 852-895). -/
theorem C3_refresh_loop (userPresent : Bool) (refreshOK : Nat → Bool)
    (trace : List RespM) (r : RespM) (k : Nat)
    (h : doRequestModel userPresent refreshOK trace 0 = .ok (r, k)) :
    k ≤ 4 ∧ trace.get? k = some r ∧
    ∀ i, i < k → ∃ ri, trace.get? i = some ri ∧ ri.status = 401 ∧
      ((userPresent && containsStr ri.wwwAuth "needs_refresh=1") = true ∨
        containsStr ri.wwwAuth "refresh_device_session=1" = true) ∧
      refreshOK i = true := by
  obtain ⟨-, h2, h3, h4⟩ := doRequestModel_ok_spec userPresent refreshOK trace 0 r k
    (by omega) h
  refine ⟨h2, by simpa using h3, ?_⟩
  intro i hi
  simpa using h4 i (by omega)

/-- C3 witness: one 401 with a user-refresh hint followed by a 200. -/
theorem C3_witness :
    (1 : Nat) ≤ 4 ∧
    [RespM.mk 401 "needs_refresh=1", RespM.mk 200 ""].get? 1 = some (RespM.mk 200 "") ∧
    ∀ i, i < 1 → ∃ ri,
      [RespM.mk 401 "needs_refresh=1", RespM.mk 200 ""].get? i = some ri ∧
      ri.status = 401 ∧
      ((true && containsStr ri.wwwAuth "needs_refresh=1") = true ∨
        containsStr ri.wwwAuth "refresh_device_session=1" = true) ∧
      (fun _ => true : Nat → Bool) i = true :=
  C3_refresh_loop true (fun _ => true)
    [RespM.mk 401 "needs_refresh=1", RespM.mk 200 ""] (RespM.mk 200 "") 1 (by rfl)

/-! ## C1 — download hash invariant -/

theorem writeAt_zero_full (file body : List Nat) (h : file.length ≤ body.length) :
    writeAt file 0 body = body := by
  unfold writeAt
  rw [List.drop_eq_nil_of_le (show file.length ≤ 0 + body.length by omega)]
  simp

theorem writeAt_end (file body : List Nat) :
    writeAt file file.length body = file ++ body := by
  unfold writeAt
  rw [List.take_length,
    List.drop_eq_nil_of_le (show file.length ≤ file.length + body.length by omega)]
  simp

/-- Loop invariant: if the download loop completes with `.ok` and the run
was clean, the final file's digest is the expected one. The invariant
`resume = 0 → pos = 0` holds at every call site. -/
theorem downloadLoop_ok_digest (expected : String) (digest : List Nat → String)
    (hne : expected ≠ "") :
    ∀ (trace : List Outcome) (file : List Nat) (pos resume left : Nat),
      (resume = 0 → pos = 0) →
      ∀ out, downloadLoop expected digest trace file pos resume left = out →
        out.res = .ok () → out.clean = true →
        digest out.file = expected := by
  intro trace
  induction trace with
  | nil =>
    intro file pos resume left hInv out hout hres hclean
    rw [downloadLoop] at hout
    subst hout
    exact absurd hres (by simp)
  | cons o rest ih =>
    intro file pos resume left hInv out hout hres hclean
    rw [downloadLoop] at hout
    by_cases hrc : resume > 0 ∧ file.length ≠ resume
    · rw [if_pos hrc] at hout
      subst hout
      exact absurd hres (by simp)
    · rw [if_neg hrc] at hout
      cases o with
      | err retryable =>
        simp only [] at hout
        split at hout
        · refine ih file _ resume (left - 1) ?_ out hout hres hclean
          intro h0
          simp only [h0, gt_iff_lt, Nat.lt_irrefl, if_false]
          exact hInv h0
        · subst hout
          exact absurd hres (by simp)
      | resp status retryResp body copyErr =>
        simp only [] at hout
        by_cases hreset : resume > 0 ∧ status ≠ 206
        · simp only [if_pos hreset] at hout
          split at hout
          · exact ih file 0 0 (left - 1) (fun _ => rfl) out hout hres hclean
          · split at hout
            · split at hout
              · split at hout
                · exact ih _ _ _ (left - 1) (fun h => h) out hout hres hclean
                · subst hout
                  exact absurd hres (by simp)
              · split at hout
                · subst hout
                  exact absurd hres (by simp)
                · rename_i hhash
                  subst hout
                  simp only [decide_eq_true_eq] at hclean
                  have hdig : expected = digest ([] ++ body) := by
                    by_contra hcontra
                    exact hhash ⟨hne, hcontra⟩
                  rw [writeAt_zero_full _ _ (by omega)]
                  simpa using hdig.symm
            · split at hout
              · subst hout
                exact absurd hres (by simp)
              · subst hout
                exact absurd hres (by simp)
        · simp only [if_neg hreset] at hout
          by_cases hr0 : resume > 0
          · have hfl : file.length = resume := by
              by_contra hc
              exact hrc ⟨hr0, hc⟩
            simp only [if_pos hr0] at hout
            split at hout
            · exact ih file file.length resume (left - 1)
                (fun h0 => absurd h0 (by omega)) out hout hres hclean
            · split at hout
              · split at hout
                · split at hout
                  · exact ih _ _ _ (left - 1) (fun h => h) out hout hres hclean
                  · subst hout
                    exact absurd hres (by simp)
                · split at hout
                  · subst hout
                    exact absurd hres (by simp)
                  · rename_i hhash
                    subst hout
                    have hdig : expected = digest (file ++ body) := by
                      by_contra hcontra
                      exact hhash ⟨hne, hcontra⟩
                    rw [writeAt_end]
                    exact hdig.symm
              · split at hout
                · subst hout
                  exact absurd hres (by simp)
                · subst hout
                  exact absurd hres (by simp)
          · have h0 : resume = 0 := by omega
            have hp : pos = 0 := hInv h0
            subst hp
            simp only [if_neg hr0] at hout
            split at hout
            · exact ih file 0 resume (left - 1) (fun _ => rfl) out hout hres hclean
            · split at hout
              · split at hout
                · split at hout
                  · exact ih _ _ _ (left - 1) (fun h => h) out hout hres hclean
                  · subst hout
                    exact absurd hres (by simp)
                · split at hout
                  · subst hout
                    exact absurd hres (by simp)
                  · rename_i hhash
                    subst hout
                    simp only [decide_eq_true_eq] at hclean
                    have hdig : expected = digest ([] ++ body) := by
                      by_contra hcontra
                      exact hhash ⟨hne, hcontra⟩
                    rw [writeAt_zero_full _ _ (by omega)]
                    simpa using hdig.symm
              · split at hout
                · subst hout
                  exact absurd hres (by simp)
                · subst hout
                  exact absurd hres (by simp)

theorem downloadStage1_ok_digest (digest : List Nat → String) (info : DownloadInfoM)
    (initialPartial : List Nat) (trace : List Outcome) (hne : info.Sha3_384 ≠ "")
    (out : LoopOut) (hout : downloadStage1 digest info initialPartial trace = out)
    (hres : out.res = .ok ()) (hclean : out.clean = true) :
    digest out.file = info.Sha3_384 := by
  unfold downloadStage1 at hout
  simp only [] at hout
  split at hout
  · exact downloadLoop_ok_digest _ _ hne trace initialPartial _ _ 7
      (fun h => h) out hout hres hclean
  · split at hout
    · subst hout
      exact absurd hres (by simp)
    · rename_i hh
      subst hout
      exact (not_ne_iff.mp hh).symm

theorem downloadFull_ok_digest (digest : List Nat → String) (info : DownloadInfoM)
    (initialPartial : List Nat) (trace retryTrace : List Outcome)
    (hne : info.Sha3_384 ≠ "") (content : List Nat)
    (hres : (downloadFull digest info initialPartial trace retryTrace).res = .ok content)
    (hclean : (downloadFull digest info initialPartial trace retryTrace).clean = true) :
    digest content = info.Sha3_384 := by
  unfold downloadFull at hres hclean
  simp only [] at hres hclean
  cases hs1 : (downloadStage1 digest info initialPartial trace).res with
  | ok u =>
    rw [hs1] at hres hclean
    simp only [] at hres hclean
    injection hres with hres
    subst hres
    exact downloadStage1_ok_digest digest info initialPartial trace hne _ rfl
      (by rw [hs1]) hclean
  | error e =>
    rw [hs1] at hres hclean
    cases e with
    | hashErr a ex =>
      simp only [] at hres hclean
      cases hs2 : (downloadLoop info.Sha3_384 digest retryTrace [] 0 0 7).res with
      | ok u =>
        rw [hs2] at hres hclean
        simp only [] at hres hclean
        injection hres with hres
        subst hres
        exact downloadLoop_ok_digest _ _ hne retryTrace [] 0 0 7 (fun _ => rfl) _ rfl
          (by rw [hs2]) hclean
      | error e2 =>
        rw [hs2] at hres
        simp only [] at hres
        exact Except.noConfusion hres
    | truncatedTrace =>
      simp only [] at hres
      exact Except.noConfusion hres
    | resumeOffsetWrong =>
      simp only [] at hres
      exact Except.noConfusion hres
    | transport =>
      simp only [] at hres
      exact Except.noConfusion hres
    | buyRequired =>
      simp only [] at hres
      exact Except.noConfusion hres
    | downloadErr code =>
      simp only [] at hres
      exact Except.noConfusion hres

/-- C1 counterexample: with an empty expected hash (`Sha3_384 = ""`), the
download loop skips verification entirely (store.go line 1745's
`sha3_384 != ""` guard), so `Download` can succeed while the file's digest
differs from `downloadInfo.Sha3_384`. `constDigest` stands in for the real
hex SHA3-384 digest, which is never the empty string. -/
theorem C1_counterexample :
    (downloadModel constDigest noCache DeltaCase.off ⟨"", 0⟩ []
        [Outcome.resp 200 false [7] none] []).res = .ok [7] ∧
    constDigest [7] ≠ ("" : String) := by
  exact ⟨rfl, by decide⟩

/-- C1 (amended): provided `downloadInfo.Sha3_384` is non-empty, the cache
only serves content whose digest matches its key, and no attempt completed
by answering a range request with a 200 body shorter than the data already
on disk (the `clean` flag), every `Download` that returns without error
leaves content at `targetPath` whose SHA3-384 digest equals
`downloadInfo.Sha3_384`. Moreover, when the first full-download stage
reports a hash mismatch, `Download` truncates the partial file to zero
(the retry runs on `[]` with resume offset `0`) and retries exactly once:
the final outcome is that of the single retry run, a second mismatch
surfacing as a `HashError`. -/
theorem C1_download_hash (digest : List Nat → String)
    (cache : String → Option (List Nat)) (delta : DeltaCase) (info : DownloadInfoM)
    (initialPartial : List Nat) (trace retryTrace : List Outcome)
    (hcache : ∀ c, cache info.Sha3_384 = some c → digest c = info.Sha3_384)
    (hne : info.Sha3_384 ≠ "") :
    (∀ content,
      (downloadModel digest cache delta info initialPartial trace retryTrace).res =
        .ok content →
      (downloadModel digest cache delta info initialPartial trace retryTrace).clean =
        true →
      digest content = info.Sha3_384) ∧
    (cache info.Sha3_384 = none → delta = DeltaCase.off →
      ∀ a e, (downloadStage1 digest info initialPartial trace).res =
          .error (.hashErr a e) →
        ((downloadLoop info.Sha3_384 digest retryTrace [] 0 0 7).res = .ok () →
          (downloadModel digest cache delta info initialPartial trace retryTrace).res =
            .ok (downloadLoop info.Sha3_384 digest retryTrace [] 0 0 7).file) ∧
        (∀ e2, (downloadLoop info.Sha3_384 digest retryTrace [] 0 0 7).res = .error e2 →
          (downloadModel digest cache delta info initialPartial trace retryTrace).res =
            .error e2)) := by
  constructor
  · intro content hres hclean
    unfold downloadModel at hres hclean
    cases hc : cache info.Sha3_384 with
    | some c =>
      rw [hc] at hres hclean
      simp only [] at hres hclean
      injection hres with hres
      subst hres
      exact hcache _ hc
    | none =>
      rw [hc] at hres hclean
      simp only [] at hres hclean
      cases delta with
      | off =>
        simp only [] at hres hclean
        exact downloadFull_ok_digest digest info initialPartial trace retryTrace hne
          content hres hclean
      | failed =>
        simp only [] at hres hclean
        exact downloadFull_ok_digest digest info initialPartial trace retryTrace hne
          content hres hclean
      | produced c =>
        simp only [] at hres hclean
        by_cases hdc : info.Sha3_384 ≠ "" ∧ info.Sha3_384 ≠ digest c
        · rw [if_pos hdc] at hres hclean
          simp only [] at hres hclean
          exact downloadFull_ok_digest digest info initialPartial trace retryTrace hne
            content hres hclean
        · rw [if_neg hdc] at hres hclean
          simp only [] at hres hclean
          injection hres with hres
          subst hres
          exact (not_ne_iff.mp (not_and.mp hdc hne)).symm
  · intro hc hdel a e hs1
    subst hdel
    unfold downloadModel
    rw [hc]
    simp only []
    unfold downloadFull
    simp only []
    rw [hs1]
    simp only []
    constructor
    · intro hok2
      rw [hok2]
    · intro e2 he2
      rw [he2]

/-- C1 witness: a clean single-response download against a digest function
recognising the body. -/
theorem C1_witness :
    (∀ content,
      (downloadModel digestW noCache DeltaCase.off ⟨"H7", 0⟩ []
          [Outcome.resp 200 false [7] none] []).res = .ok content →
      (downloadModel digestW noCache DeltaCase.off ⟨"H7", 0⟩ []
          [Outcome.resp 200 false [7] none] []).clean = true →
      digestW content = ("H7" : String)) ∧
    (noCache "H7" = none → DeltaCase.off = DeltaCase.off →
      ∀ a e, (downloadStage1 digestW ⟨"H7", 0⟩ []
          [Outcome.resp 200 false [7] none]).res = .error (.hashErr a e) →
        ((downloadLoop "H7" digestW [] [] 0 0 7).res = .ok () →
          (downloadModel digestW noCache DeltaCase.off ⟨"H7", 0⟩ []
              [Outcome.resp 200 false [7] none] []).res =
            .ok (downloadLoop "H7" digestW [] [] 0 0 7).file) ∧
        (∀ e2, (downloadLoop "H7" digestW [] [] 0 0 7).res = .error e2 →
          (downloadModel digestW noCache DeltaCase.off ⟨"H7", 0⟩ []
              [Outcome.resp 200 false [7] none] []).res = .error e2)) :=
  C1_download_hash digestW noCache DeltaCase.off ⟨"H7", 0⟩ []
    [Outcome.resp 200 false [7] none] []
    (fun c h => Option.noConfusion h) (by decide)

end SnapdStore
